import Mathlib

/-!
# Verification of the ZeticML polymorphic inference framework

Shallow embedding of the core of the repository: the four model variants
(`LinearRegression`, `LogisticRegression`, `MultiClassClassifier`,
`TwoLayerMLP`), the model registry, and the text test-case loader.

Conventions of the embedding:
* `float` values are embedded as real numbers (`ℝ`); the loader, which is
  independent of the transcendental functions, is embedded over `ℚ` so that
  it is fully executable.
* A C++ method that can throw is embedded as a function into `Except Err _`;
  `set_parameters`, which mutates the object, returns the post-call object
  state together with `Option Err` (the C++ object outlives the exception, so
  the state at the throw point is the result state).
* Accumulation loops (`acc += w[i] * x[i]`) are embedded as sums over
  `Finset.range`.
* In `MultiClassClassifier.forward` every `std::vector` element access is
  embedded as a checked access (`getE`), because the safety claim about that
  function concerns reachability of an out-of-bounds read: dereferencing
  `std::max_element(l.begin(), l.end())` on an empty `l` dereferences the end
  iterator, embedded as the `Err.OutOfBoundsRead` branch of `maxElemE`.
-/

/-- Error taxonomy of the spec: `DimensionMismatch` for length mismatches in
`forward`/`set_parameters`, `UnknownModelType` for the factory, and
`OutOfBoundsRead` modelling an out-of-bounds vector/iterator access (which in
the C++ is undefined behaviour, not an exception). -/
inductive Err where
  | DimensionMismatch
  | UnknownModelType
  | OutOfBoundsRead
deriving DecidableEq

/-- Checked element access into a vector of reals: `v[i]` with the bounds
check made explicit. -/
def getE (l : List ℝ) (i : ℕ) : Except Err ℝ :=
  if i < l.length then .ok (l.getD i 0) else .error .OutOfBoundsRead

/-- Checked row access into a vector of vectors. -/
def getRowE (l : List (List ℝ)) (i : ℕ) : Except Err (List ℝ) :=
  if i < l.length then .ok (l.getD i []) else .error .OutOfBoundsRead

/-- `*std::max_element(l.begin(), l.end())`: on an empty range the returned
iterator is `end()` and dereferencing it is an out-of-bounds read. -/
def maxElemE (l : List ℝ) : Except Err ℝ :=
  match l.max? with
  | some v => .ok v
  | none => .error .OutOfBoundsRead

/-! ## Linear regression (`linear_regression.cpp`) -/

structure LinearRegression where
  weights : List ℝ
  bias : ℝ
  input_size : ℕ

/-- `LinearRegression::LinearRegression`: weights resized to `input_size`
zeros, bias `0`. -/
def LinearRegression.init (n : ℕ) : LinearRegression :=
  { weights := List.replicate n 0, bias := 0, input_size := n }

/-- `LinearRegression::forward`: length check, then
`result = bias_ + Σ_i weights_[i] * input[i]`, returned as `{result}`. -/
def LinearRegression.forward (m : LinearRegression) (input : List ℝ) :
    Except Err (List ℝ) :=
  if input.length ≠ m.input_size then .error .DimensionMismatch
  else .ok [m.bias + ∑ i ∈ Finset.range m.input_size,
              m.weights.getD i 0 * input.getD i 0]

/-- `LinearRegression::set_parameters`: throws on
`parameters.size() != input_size_ + 1` (before any write), else copies
`parameters[0..n-1]` into `weights_` and `parameters[n]` into `bias_`. -/
def LinearRegression.set_parameters (m : LinearRegression) (p : List ℝ) :
    LinearRegression × Option Err :=
  if p.length ≠ m.input_size + 1 then (m, some .DimensionMismatch)
  else ({ m with weights := (List.range m.input_size).map (fun i => p.getD i 0),
                 bias := p.getD m.input_size 0 }, none)

/-- `LinearRegression::output_size` is `1`. -/
def LinearRegression.output_size (_ : LinearRegression) : ℕ := 1

/-! ## Logistic regression (`logistic_regression.cpp`) -/

structure LogisticRegression where
  weights : List ℝ
  bias : ℝ
  input_size : ℕ

/-- `LogisticRegression::LogisticRegression`. -/
def LogisticRegression.init (n : ℕ) : LogisticRegression :=
  { weights := List.replicate n 0, bias := 0, input_size := n }

/-- The linear pre-activation `linear_output` of `LogisticRegression::forward`. -/
def LogisticRegression.linear_output (m : LogisticRegression) (input : List ℝ) : ℝ :=
  m.bias + ∑ i ∈ Finset.range m.input_size, m.weights.getD i 0 * input.getD i 0

/-- `LogisticRegression::forward`: length check, linear combination, then
`1.0f / (1.0f + std::exp(-linear_output))`. -/
noncomputable def LogisticRegression.forward (m : LogisticRegression)
    (input : List ℝ) : Except Err (List ℝ) :=
  if input.length ≠ m.input_size then .error .DimensionMismatch
  else .ok [1 / (1 + Real.exp (-(m.linear_output input)))]

/-- `LogisticRegression::set_parameters`. -/
def LogisticRegression.set_parameters (m : LogisticRegression) (p : List ℝ) :
    LogisticRegression × Option Err :=
  if p.length ≠ m.input_size + 1 then (m, some .DimensionMismatch)
  else ({ m with weights := (List.range m.input_size).map (fun i => p.getD i 0),
                 bias := p.getD m.input_size 0 }, none)

/-- `LogisticRegression::output_size` is `1`. -/
def LogisticRegression.output_size (_ : LogisticRegression) : ℕ := 1

/-! ## Multi-class softmax classifier (`multi_class_classifier.cpp`)

Every element access in `forward` is embedded as a checked access, because
the classifier is the variant whose bounds-safety is in question: the
constructor accepts `num_classes == 0` and `forward` then dereferences
`std::max_element` of an empty logit vector. -/

structure MultiClassClassifier where
  weights : List (List ℝ)
  biases : List ℝ
  input_size : ℕ
  num_classes : ℕ

/-- `MultiClassClassifier::MultiClassClassifier`: `weights_` resized to
`num_classes` rows of `input_size` zeros, `biases_` to `num_classes` zeros.
There is no validation of either size. -/
def MultiClassClassifier.init (n k : ℕ) : MultiClassClassifier :=
  { weights := List.replicate k (List.replicate n 0),
    biases := List.replicate k 0,
    input_size := n, num_classes := k }

/-- The logit loop body for one class `c`:
`logits[c] = biases_[c]; for i: logits[c] += weights_[c][i] * input[i]`,
with every element access checked. -/
def MultiClassClassifier.logitE (m : MultiClassClassifier) (input : List ℝ)
    (c : ℕ) : Except Err ℝ :=
  match getRowE m.weights c with
  | .error e => .error e
  | .ok row =>
    match getE m.biases c with
    | .error e => .error e
    | .ok b =>
      (List.range m.input_size).foldlM
        (fun acc i =>
          match getE row i with
          | .error e => .error e
          | .ok w =>
            match getE input i with
            | .error e => .error e
            | .ok x => .ok (acc + w * x)) b

/-- The softmax tail of `forward` given the logit vector and the value read
for `max_logit`: `probabilities[c] = std::exp(logits[c] - max_logit)`,
`sum_exp` their running sum, then `probabilities[c] /= sum_exp`. -/
noncomputable def softmaxWith (logits : List ℝ) (maxLogit : ℝ) : List ℝ :=
  let exps := logits.map (fun z => Real.exp (z - maxLogit))
  exps.map (fun e => e / exps.sum)

/-- `MultiClassClassifier::forward`: length check, per-class logits,
`max_logit = *std::max_element(...)`, exponentiate shifted logits, sum, and
normalize. -/
noncomputable def MultiClassClassifier.forward (m : MultiClassClassifier)
    (input : List ℝ) : Except Err (List ℝ) :=
  if input.length ≠ m.input_size then .error .DimensionMismatch
  else
    match (List.range m.num_classes).mapM (m.logitE input) with
    | .error e => .error e
    | .ok logits =>
      match maxElemE logits with
      | .error e => .error e
      | .ok maxLogit => .ok (softmaxWith logits maxLogit)

/-- `MultiClassClassifier::set_parameters`: expected size
`num_classes_ * input_size_ + num_classes_`, throw before any write on
mismatch; otherwise `weights_[c][i] = parameters[c*n + i]` (the running
`param_idx` of the nested loop) and `biases_[c] = parameters[k*n + c]`. -/
def MultiClassClassifier.set_parameters (m : MultiClassClassifier)
    (p : List ℝ) : MultiClassClassifier × Option Err :=
  if p.length ≠ m.num_classes * m.input_size + m.num_classes then
    (m, some .DimensionMismatch)
  else
    ({ m with
        weights := (List.range m.num_classes).map (fun c =>
          (List.range m.input_size).map (fun i => p.getD (c * m.input_size + i) 0)),
        biases := (List.range m.num_classes).map (fun c =>
          p.getD (m.num_classes * m.input_size + c) 0) }, none)

/-- `MultiClassClassifier::output_size` is `num_classes_`. -/
def MultiClassClassifier.output_size (m : MultiClassClassifier) : ℕ :=
  m.num_classes

/-- The pure per-class logit formula
`z_c = biases_[c] + Σ_i weights_[c][i] * input[i]` (what `logitE` computes
when every access is in bounds). -/
def MultiClassClassifier.logit (m : MultiClassClassifier) (input : List ℝ)
    (c : ℕ) : ℝ :=
  m.biases.getD c 0 + ∑ i ∈ Finset.range m.input_size,
    (m.weights.getD c []).getD i 0 * input.getD i 0

/-- Size invariant established by the constructor and preserved by
`set_parameters`: row and bias counts match the stored shape. -/
def MultiClassClassifier.WF (m : MultiClassClassifier) : Prop :=
  m.weights.length = m.num_classes ∧ m.biases.length = m.num_classes ∧
    ∀ row ∈ m.weights, row.length = m.input_size

/-! ## Two-layer MLP (`two_layer_mlp.cpp`) -/

structure TwoLayerMLP where
  W1 : List ℝ
  b1 : List ℝ
  W2 : List ℝ
  b2 : List ℝ
  input_size : ℕ
  hidden_size : ℕ
  output_size : ℕ

/-- `TwoLayerMLP::TwoLayerMLP`: flat weight blocks resized to
`input_size*hidden_size`, `hidden_size`, `hidden_size*output_size`,
`output_size`, all zeros. -/
def TwoLayerMLP.init (n h m : ℕ) : TwoLayerMLP :=
  { W1 := List.replicate (n * h) 0, b1 := List.replicate h 0,
    W2 := List.replicate (h * m) 0, b2 := List.replicate m 0,
    input_size := n, hidden_size := h, output_size := m }

/-- Hidden unit `j` of `TwoLayerMLP::forward`:
`hidden[j] = b1_[j]; for i: hidden[j] += W1_[i*hidden_size_ + j] * input[i];
hidden[j] = std::max(0.0f, hidden[j])`. -/
def TwoLayerMLP.hidden (s : TwoLayerMLP) (input : List ℝ) (j : ℕ) : ℝ :=
  max 0 (s.b1.getD j 0 + ∑ i ∈ Finset.range s.input_size,
    s.W1.getD (i * s.hidden_size + j) 0 * input.getD i 0)

/-- Output unit `o` of `TwoLayerMLP::forward`:
`output[o] = b2_[o]; for j: output[o] += W2_[j*output_size_ + o] * hidden[j]`
with no activation applied afterwards. -/
def TwoLayerMLP.outUnit (s : TwoLayerMLP) (input : List ℝ) (o : ℕ) : ℝ :=
  s.b2.getD o 0 + ∑ j ∈ Finset.range s.hidden_size,
    s.W2.getD (j * s.output_size + o) 0 * s.hidden input j

/-- `TwoLayerMLP::forward`: length check, hidden layer with ReLU, linear
output layer. -/
def TwoLayerMLP.forward (s : TwoLayerMLP) (input : List ℝ) :
    Except Err (List ℝ) :=
  if input.length ≠ s.input_size then .error .DimensionMismatch
  else .ok ((List.range s.output_size).map (s.outUnit input))

/-- `TwoLayerMLP::set_parameters`: expected size
`W1_.size() + b1_.size() + W2_.size() + b2_.size()`, throw before any write
on mismatch; otherwise copy in order W1, b1, W2, b2 with a running index. -/
def TwoLayerMLP.set_parameters (s : TwoLayerMLP) (p : List ℝ) :
    TwoLayerMLP × Option Err :=
  if p.length ≠ s.W1.length + s.b1.length + s.W2.length + s.b2.length then
    (s, some .DimensionMismatch)
  else
    ({ s with
        W1 := (List.range s.W1.length).map (fun i => p.getD i 0),
        b1 := (List.range s.b1.length).map (fun i => p.getD (s.W1.length + i) 0),
        W2 := (List.range s.W2.length).map (fun i =>
          p.getD (s.W1.length + s.b1.length + i) 0),
        b2 := (List.range s.b2.length).map (fun i =>
          p.getD (s.W1.length + s.b1.length + s.W2.length + i) 0) }, none)

/-! ## Model registry (`model_registry.h`)

The registry dispatches by arity: three `create_model` overloads taking one,
two and three shape integers. -/

inductive Model where
  | linear (m : LinearRegression)
  | logistic (m : LogisticRegression)
  | multiclass (m : MultiClassClassifier)
  | mlp (m : TwoLayerMLP)

/-- `NeuralNetwork::input_size` dispatched over the variants. -/
def Model.input_size : Model → ℕ
  | .linear m => m.input_size
  | .logistic m => m.input_size
  | .multiclass m => m.input_size
  | .mlp m => m.input_size

/-- `NeuralNetwork::output_size` dispatched over the variants. -/
def Model.output_size : Model → ℕ
  | .linear m => m.output_size
  | .logistic m => m.output_size
  | .multiclass m => m.output_size
  | .mlp m => m.output_size

/-- `ModelRegistry::create_model(type_name, input_size)`: `"linear"` and
`"logistic"` recognized, anything else throws. -/
def create_model1 (type_name : String) (input_size : ℕ) : Except Err Model :=
  if type_name = "linear" then .ok (.linear (LinearRegression.init input_size))
  else if type_name = "logistic" then
    .ok (.logistic (LogisticRegression.init input_size))
  else .error .UnknownModelType

/-- `ModelRegistry::create_model(type_name, input_size, param2)`: only
`"multiclass"` recognized. -/
def create_model2 (type_name : String) (input_size param2 : ℕ) :
    Except Err Model :=
  if type_name = "multiclass" then
    .ok (.multiclass (MultiClassClassifier.init input_size param2))
  else .error .UnknownModelType

/-- `ModelRegistry::create_model(type_name, input_size, hidden_size,
output_size)`: only `"mlp"` recognized. -/
def create_model3 (type_name : String) (input_size hidden_size output_size : ℕ) :
    Except Err Model :=
  if type_name = "mlp" then
    .ok (.mlp (TwoLayerMLP.init input_size hidden_size output_size))
  else .error .UnknownModelType

/-! ## Test data loader (`test_data_loader.h`)

Embedded over `ℚ` (independent of the transcendental model code, so the
loader is fully executable). Lines are lists of characters; file I/O is
abstracted to a list of lines; reporting a parse error to `std::cerr` is
embedded as the line number appearing in the returned report list.
`std::stof` is modelled on decimal forms (optional sign, digits with
optional fractional part, optional exponent); hexadecimal and inf/nan
spellings are not modelled. -/

structure TestCase where
  input : List ℚ
  expected_output : List ℚ
  description_line : ℕ
deriving DecidableEq

/-- The whitespace set of `TestDataLoader::trim`: `" \t\r\n"`. -/
def isTrimWS (c : Char) : Bool :=
  c = ' ' ∨ c = '\t' ∨ c = '\r' ∨ c = '\n'

/-- `TestDataLoader::trim`: strip leading and trailing whitespace. -/
def trim (cs : List Char) : List Char :=
  ((cs.dropWhile isTrimWS).reverse.dropWhile isTrimWS).reverse

/-- Value of a decimal digit character. -/
def digitVal (c : Char) : Option ℕ :=
  if '0' ≤ c ∧ c ≤ '9' then some (c.toNat - '0'.toNat) else none

/-- Split off the longest run of leading decimal digits. -/
def takeDigits : List Char → List ℕ × List Char
  | [] => ([], [])
  | c :: cs =>
    match digitVal c with
    | some d => let (ds, r) := takeDigits cs; (d :: ds, r)
    | none => ([], c :: cs)

/-- Natural number denoted by a digit run. -/
def natOfDigits (ds : List ℕ) : ℕ :=
  ds.foldl (fun a d => 10 * a + d) 0

/-- Leading sign, if any: whether it is negative, and the remaining
characters. -/
def takeSign : List Char → Bool × List Char
  | '+' :: r => (false, r)
  | '-' :: r => (true, r)
  | cs => (false, cs)

/-- `std::stof` on a token: skip leading whitespace, optional sign, digits
with optional fractional part, optional exponent; `none` when no conversion
is possible (the C++ throws `std::invalid_argument`). The longest valid
prefix is converted; trailing junk is ignored. The value is the exact
rational denoted by the decimal text (hexadecimal and inf/nan spellings are
not modelled). -/
def stof (cs : List Char) : Option ℚ :=
  let cs1 := cs.dropWhile isTrimWS
  let (neg, cs2) := takeSign cs1
  let (ip, cs3) := takeDigits cs2
  let (fp, cs4) :=
    match cs3 with
    | '.' :: r => takeDigits r
    | _ => ([], cs3)
  if ip = [] ∧ fp = [] then none
  else
    let den0 := 10 ^ fp.length
    let num0 := natOfDigits ip * den0 + natOfDigits fp
    let nd :=
      match cs4 with
      | e :: r =>
        if e = 'e' ∨ e = 'E' then
          let (eneg, r2) := takeSign r
          let (eds, _) := takeDigits r2
          if eds = [] then (num0, den0)
          else if eneg then (num0, den0 * 10 ^ natOfDigits eds)
          else (num0 * 10 ^ natOfDigits eds, den0)
        else (num0, den0)
      | [] => (num0, den0)
    some (mkRat (if neg then -(nd.1 : ℤ) else (nd.1 : ℤ)) nd.2)

/-- `TestDataLoader::parse_float_list`: split on `,`, trim each token, skip
empty tokens, convert the rest with `stof`; a failing conversion throws and
aborts the whole line. -/
def parse_float_list (cs : List Char) : Except Unit (List ℚ) :=
  (cs.splitOn ',').foldlM
    (fun acc token =>
      let t := trim token
      if t = [] then pure acc
      else
        match stof t with
        | some v => pure (acc ++ [v])
        | none => .error ()) []

/-- First occurrence of the two-character separator `"->"`
(`line.find("->")`): returns the characters before and after it. -/
def findArrow : List Char → Option (List Char × List Char)
  | '-' :: '>' :: rest => some ([], rest)
  | c :: rest =>
    (findArrow rest).map (fun pr => (c :: pr.1, pr.2))
  | [] => none

/-- `TestDataLoader::parse_line`: find the `"->"` separator (throwing when
absent), then parse the comma-separated floats on each side. -/
def parse_line (line : List Char) (line_number : ℕ) : Except Unit TestCase :=
  match findArrow line with
  | none => .error ()
  | some (before, after) => do
    let inputs ← parse_float_list (trim before)
    let outputs ← parse_float_list (trim after)
    pure { input := inputs, expected_output := outputs,
           description_line := line_number }

/-- The line loop of `TestDataLoader::load_from_file`, starting at a given
line number: blank lines and lines starting with `#` are skipped, a parse
failure is reported (its line number is appended to the second component)
and the line skipped, successful parses are collected in order. -/
def load_lines : ℕ → List (List Char) → List TestCase × List ℕ
  | _, [] => ([], [])
  | ln, line :: rest =>
    match line with
    | [] => load_lines (ln + 1) rest
    | c :: _ =>
      if c = '#' then load_lines (ln + 1) rest
      else
        match parse_line line ln with
        | .ok tc =>
          let r := load_lines (ln + 1) rest
          (tc :: r.1, r.2)
        | .error _ =>
          let r := load_lines (ln + 1) rest
          (r.1, ln :: r.2)

/-- `TestDataLoader::load_from_file` on the file's lines (line numbers start
at 1). -/
def load_from_file (lines : List (List Char)) : List TestCase × List ℕ :=
  load_lines 1 lines

deriving instance DecidableEq for Except

/-! ## Helper lemmas -/

/-- An accumulation loop `acc = b; for i in 0..n-1: acc += f i` is `b` plus
the sum. -/
theorem foldl_add_range (f : ℕ → ℝ) (b : ℝ) (n : ℕ) :
    (List.range n).foldl (fun acc i => acc + f i) b
      = b + ∑ i ∈ Finset.range n, f i := by
  induction n with
  | zero => simp
  | succ k ih =>
    rw [List.range_succ, List.foldl_append, ih, Finset.sum_range_succ]
    simp [add_assoc]

/-- A monadic fold whose step never fails is the pure fold. -/
theorem foldlM_except_ok {α β : Type} (l : List α) (step : β → α → Except Err β)
    (g : β → α → β) (h : ∀ a ∈ l, ∀ acc, step acc a = .ok (g acc a)) (b : β) :
    l.foldlM step b = .ok (l.foldl g b) := by
  induction l generalizing b with
  | nil => rfl
  | cons a t ih =>
    have ha := h a (List.mem_cons_self a t) b
    have ht : ∀ x ∈ t, ∀ acc, step acc x = .ok (g acc x) :=
      fun x hx => h x (List.mem_cons_of_mem a hx)
    simp only [List.foldlM_cons, ha, List.foldl_cons]
    simpa using ih ht (g b a)

/-- A monadic map whose function never fails is the pure map. -/
theorem mapM_except_ok {α β : Type} (l : List α) (f : α → Except Err β)
    (g : α → β) (h : ∀ a ∈ l, f a = .ok (g a)) :
    l.mapM f = .ok (l.map g) := by
  induction l with
  | nil => rfl
  | cons a t ih =>
    have ht : ∀ x ∈ t, f x = .ok (g x) :=
      fun x hx => h x (List.mem_cons_of_mem a hx)
    rw [← List.mapM'_eq_mapM] at ih ⊢
    simp only [List.mapM', h a (List.mem_cons_self a t), ih ht]
    rfl

/-- Reading a cell of a tabulated list is evaluating the tabulating
function. -/
theorem getD_map_range {β : Type} (f : ℕ → β) (d : β) {L i : ℕ} (h : i < L) :
    ((List.range L).map f).getD i d = f i := by
  rw [List.getD_eq_getElem?_getD, List.getElem?_map, List.getElem?_range h]
  rfl

/-- A tabulated slice of a list equals the take/drop slice. -/
theorem map_range_getD_slice {β : Type} (p : List β) (d : β) (off k : ℕ)
    (h : off + k ≤ p.length) :
    (List.range k).map (fun i => p.getD (off + i) d) = (p.drop off).take k := by
  apply List.ext_getElem
  · simp; omega
  intro i h1 h2
  have hik : i < k := by simpa using h1
  have hoff : off + i < p.length := by omega
  rw [List.getElem_map, List.getElem_range]
  rw [List.getElem_take, List.getElem_drop]
  rw [List.getD_eq_getElem?_getD, List.getElem?_eq_getElem hoff]
  rfl

/-- `getD` out of a constant list is the constant (or the equal default). -/
theorem getD_replicate_self {β : Type} (a : β) (n i : ℕ) :
    (List.replicate n a).getD i a = a := by
  rw [List.getD_eq_getElem?_getD, List.getElem?_replicate]
  by_cases hi : i < n <;> simp [hi]

/-- Dividing every element by a scalar divides the sum. -/
theorem sum_map_div (l : List ℝ) (S : ℝ) :
    (l.map (fun e => e / S)).sum = l.sum / S := by
  simp only [div_eq_mul_inv]
  simpa using List.sum_map_mul_right l id S⁻¹

/-- Every entry of the normalized softmax output is in `[0, 1]` (any shift
value, nonempty logit list). -/
theorem softmaxWith_mem_unit (logits : List ℝ) (mx : ℝ) (hne : logits ≠ [])
    (p : ℝ) (hp : p ∈ softmaxWith logits mx) : 0 ≤ p ∧ p ≤ 1 := by
  unfold softmaxWith at hp
  set exps := logits.map (fun z => Real.exp (z - mx)) with hexps
  have hpos : ∀ e ∈ exps, 0 < e := by
    intro e he
    rw [hexps] at he
    obtain ⟨z, _, rfl⟩ := List.mem_map.mp he
    exact Real.exp_pos _
  have hesum : 0 < exps.sum :=
    List.sum_pos exps hpos (by simpa [hexps] using hne)
  obtain ⟨e, he, rfl⟩ := List.mem_map.mp hp
  constructor
  · exact div_nonneg (le_of_lt (hpos e he)) (le_of_lt hesum)
  · apply div_le_one_of_le₀
    · exact List.single_le_sum (fun x hx => le_of_lt (hpos x hx)) e he
    · exact le_of_lt hesum

/-- The normalized softmax output sums to exactly `1` (any shift value,
nonempty logit list). -/
theorem softmaxWith_sum_one (logits : List ℝ) (mx : ℝ) (hne : logits ≠ []) :
    (softmaxWith logits mx).sum = 1 := by
  unfold softmaxWith
  set exps := logits.map (fun z => Real.exp (z - mx)) with hexps
  have hesum : 0 < exps.sum := by
    refine List.sum_pos exps ?_ (by simpa [hexps] using hne)
    intro e he
    rw [hexps] at he
    obtain ⟨z, _, rfl⟩ := List.mem_map.mp he
    exact Real.exp_pos _
  rw [sum_map_div]
  exact div_self (ne_of_gt hesum)

/-- In-bounds checked access reads the element. -/
theorem getE_ok (l : List ℝ) (i : ℕ) (h : i < l.length) :
    getE l i = .ok (l.getD i 0) := by
  rw [getE, if_pos h]

/-- In-bounds checked row access reads the row. -/
theorem getRowE_ok (l : List (List ℝ)) (i : ℕ) (h : i < l.length) :
    getRowE l i = .ok (l.getD i []) := by
  rw [getRowE, if_pos h]

/-- Under the size invariant, the checked logit computation succeeds and
computes the pure logit formula. -/
theorem logitE_ok (m : MultiClassClassifier) (input : List ℝ) (hwf : m.WF)
    (hlen : input.length = m.input_size) {c : ℕ} (hc : c < m.num_classes) :
    m.logitE input c = .ok (m.logit input c) := by
  obtain ⟨hw, hb, hrow⟩ := hwf
  have hcw : c < m.weights.length := by omega
  have hcb : c < m.biases.length := by omega
  have hrl : (m.weights.getD c []).length = m.input_size := by
    apply hrow
    rw [List.getD_eq_getElem?_getD, List.getElem?_eq_getElem hcw]
    exact List.getElem_mem hcw
  unfold MultiClassClassifier.logitE
  simp only [getRowE_ok m.weights c hcw, getE_ok m.biases c hcb]
  rw [foldlM_except_ok (List.range m.input_size) _
      (fun acc i => acc + (m.weights.getD c []).getD i 0 * input.getD i 0) ?_]
  · rw [foldl_add_range]
    rfl
  · intro i hi acc
    have hin : i < m.input_size := List.mem_range.mp hi
    simp only [getE_ok (m.weights.getD c []) i (by omega),
               getE_ok input i (by omega)]

/-- Under the size invariant, with a matching input length and at least one
class, `forward` succeeds and returns the softmax of the pure logits shifted
by the value `max_logit` read from them. -/
theorem MultiClassClassifier.forward_ok (m : MultiClassClassifier)
    (input : List ℝ) (hwf : m.WF) (hlen : input.length = m.input_size)
    (hk : 1 ≤ m.num_classes) :
    ∃ mx, ((List.range m.num_classes).map (m.logit input)).max? = some mx ∧
      m.forward input
        = .ok (softmaxWith ((List.range m.num_classes).map (m.logit input)) mx) := by
  have hmapM : (List.range m.num_classes).mapM (m.logitE input)
      = .ok ((List.range m.num_classes).map (m.logit input)) := by
    apply mapM_except_ok
    intro c hcmem
    exact logitE_ok m input hwf hlen (List.mem_range.mp hcmem)
  have hne : (List.range m.num_classes).map (m.logit input) ≠ [] := by
    simp only [ne_eq, List.map_eq_nil_iff, List.range_eq_nil]
    omega
  obtain ⟨mx, hmx⟩ : ∃ mx,
      ((List.range m.num_classes).map (m.logit input)).max? = some mx := by
    cases h : ((List.range m.num_classes).map (m.logit input)).max? with
    | none => exact absurd (List.max?_eq_none_iff.mp h) hne
    | some v => exact ⟨v, rfl⟩
  refine ⟨mx, hmx, ?_⟩
  unfold MultiClassClassifier.forward
  rw [if_neg (by omega)]
  simp only [hmapM, maxElemE, hmx]

/-- Folding `max` over copies of the starting value is the value itself. -/
theorem foldl_max_replicate (a : ℝ) (k : ℕ) :
    (List.replicate k a).foldl max a = a := by
  induction k with
  | zero => rfl
  | succ j ih => simpa [List.replicate_succ, max_self] using ih

/-- The maximum of a nonempty constant list is the constant. -/
theorem max?_replicate_succ (a : ℝ) (k : ℕ) :
    (List.replicate (k + 1) a).max? = some a := by
  rw [List.replicate_succ]
  show some ((List.replicate k a).foldl max a) = some a
  rw [foldl_max_replicate]

/-- A freshly constructed classifier has all-zero logits. -/
theorem logit_init_zero (n k : ℕ) (x : List ℝ) (c : ℕ) :
    (MultiClassClassifier.init n k).logit x c = 0 := by
  unfold MultiClassClassifier.logit MultiClassClassifier.init
  have hz : ∀ i ∈ Finset.range n,
      ((List.replicate k (List.replicate n (0 : ℝ))).getD c []).getD i 0 * x.getD i 0 = 0 := by
    intro i hi
    have hin : i < n := Finset.mem_range.mp hi
    by_cases hc : c < k <;>
      simp [List.getD_eq_getElem?_getD, List.getElem?_replicate, hc, hin]
  rw [Finset.sum_congr rfl hz]
  by_cases hc : c < k <;>
    simp [List.getD_eq_getElem?_getD, List.getElem?_replicate, hc]

/-- The size invariant holds for a freshly constructed classifier. -/
theorem WF_init (n k : ℕ) : (MultiClassClassifier.init n k).WF := by
  refine ⟨by simp [MultiClassClassifier.init], by simp [MultiClassClassifier.init], ?_⟩
  intro row hrow
  rw [MultiClassClassifier.init] at hrow
  simp only [List.mem_replicate] at hrow
  simp [hrow.2, MultiClassClassifier.init]

/-- The size invariant holds after a successful `set_parameters`. -/
theorem WF_set_parameters (m : MultiClassClassifier) (p : List ℝ)
    (h : p.length = m.num_classes * m.input_size + m.num_classes) :
    ((m.set_parameters p).1).WF := by
  unfold MultiClassClassifier.set_parameters
  rw [if_neg (by omega)]
  refine ⟨by simp, by simp, ?_⟩
  intro row hrow
  simp only [List.mem_map] at hrow
  obtain ⟨c, _, rfl⟩ := hrow
  simp

/-! ## Claim theorems -/

/-- Claim C5: for every LogisticRegression model and every input of length
`input_size`, the single output value of `forward` — the sigmoid
`1/(1+e^(-z))` of the linear pre-activation `z` — lies strictly in `(0, 1)`
(real-valued semantics of the float computation). -/
theorem logistic_forward_open_unit (m : LogisticRegression) (x : List ℝ)
    (hlen : x.length = m.input_size) :
    ∃ y, m.forward x = .ok [y] ∧ 0 < y ∧ y < 1 := by
  refine ⟨1 / (1 + Real.exp (-(m.linear_output x))), ?_, ?_, ?_⟩
  · unfold LogisticRegression.forward
    rw [if_neg (by omega)]
  · positivity
  · rw [div_lt_one (by positivity)]
    have := Real.exp_pos (-(m.linear_output x))
    linarith

/-- Witness for C5 at a concrete model and input. -/
theorem logistic_forward_open_unit_witness :
    ∃ y, (LogisticRegression.init 2).forward [3, -4] = .ok [y] ∧ 0 < y ∧ y < 1 :=
  logistic_forward_open_unit (LogisticRegression.init 2) [3, -4] (by simp [LogisticRegression.init])

/-- Claim C8: a LinearRegression model with `input_size` n expects `n` weights then
one bias (`n+1` values); `forward` on an input of length `n` returns the
single affine value with no nonlinearity (with the spec example at
`n = 3`), and `forward` on any other input length fails with
`DimensionMismatch`. -/
theorem linear_forward_affine (n : ℕ) (p x : List ℝ) (hp : p.length = n + 1) :
    (∀ q : List ℝ, q.length ≠ n + 1 →
      (LinearRegression.init n).set_parameters q
        = (LinearRegression.init n, some .DimensionMismatch)) ∧
    (((LinearRegression.init n).set_parameters p).2 = none ∧
      ((LinearRegression.init n).set_parameters p).1.weights = p.take n ∧
      ((LinearRegression.init n).set_parameters p).1.bias = p.getD n 0) ∧
    (x.length = n →
      (((LinearRegression.init n).set_parameters p).1).forward x
        = .ok [p.getD n 0 + ∑ i ∈ Finset.range n, p.getD i 0 * x.getD i 0]) ∧
    (x.length ≠ n →
      (((LinearRegression.init n).set_parameters p).1).forward x
        = .error .DimensionMismatch) ∧
    ((((LinearRegression.init 3).set_parameters [0.5, 0.3, 0.2, 0.1]).1).forward
        [1.0, 2.0, -0.5] = .ok [1.1]) := by
  have hset : (LinearRegression.init n).set_parameters p
      = ({ weights := (List.range n).map (fun i => p.getD i 0),
           bias := p.getD n 0, input_size := n }, none) := by
    unfold LinearRegression.set_parameters LinearRegression.init
    rw [if_neg (by simp [hp])]
  refine ⟨?_, ?_, ?_, ?_, ?_⟩
  · intro q hq
    unfold LinearRegression.set_parameters
    rw [if_pos (by simpa [LinearRegression.init] using hq)]
  · refine ⟨by rw [hset], ?_, by rw [hset]⟩
    rw [hset]
    show (List.range n).map (fun i => p.getD i 0) = p.take n
    have := map_range_getD_slice p 0 0 n (by omega)
    simpa using this
  · intro hx
    rw [hset]
    unfold LinearRegression.forward
    rw [if_neg (by simpa using hx)]
    congr 1
    refine congrArg (fun v => [v]) ?_
    refine congrArg (fun s => p.getD n 0 + s) (Finset.sum_congr rfl ?_)
    intro i hi
    rw [getD_map_range _ _ (Finset.mem_range.mp hi)]
  · intro hx
    rw [hset]
    unfold LinearRegression.forward
    rw [if_pos (by simpa using hx)]
  · norm_num [LinearRegression.init, LinearRegression.set_parameters,
      LinearRegression.forward, List.range_succ, Finset.sum_range_succ]

/-- Witness for C8 at `n = 2`, parameters `[1, 2, 3]`, inputs `[10, 20]`
(length 2) rejected-length checks at `[1]`. -/
theorem linear_forward_affine_witness :
    (LinearRegression.init 2).set_parameters [1]
        = (LinearRegression.init 2, some .DimensionMismatch) ∧
    (((LinearRegression.init 2).set_parameters [1, 2, 3]).1).forward [10, 20]
        = .ok [53] := by
  have h := linear_forward_affine 2 [1, 2, 3] [10, 20] (by simp)
  refine ⟨h.1 [1] (by simp), ?_⟩
  have h2 := h.2.2.1 (by simp)
  norm_num [Finset.sum_range_succ] at h2
  exact h2

/-- Claim C7: the factory constructs the variant matching the type identifier
(at each arity), `create("linear", 3)` has input size 3 and output size 1,
an unrecognized identifier fails with `UnknownModelType`, and a recognized
identifier given to the wrong-arity overload (such as `"linear"` with two
shape integers) also fails with `UnknownModelType`. -/
theorem registry_create_dispatch :
    ((create_model1 ("linear") 3).map Model.input_size = .ok 3) ∧
    ((create_model1 ("linear") 3).map Model.output_size = .ok 1) ∧
    (create_model1 ("bogus") 2 = .error .UnknownModelType) ∧
    (create_model2 ("linear") 2 3 = .error .UnknownModelType) ∧
    (∀ n, create_model1 ("linear") n = .ok (.linear (LinearRegression.init n))) ∧
    (∀ n, create_model1 ("logistic") n = .ok (.logistic (LogisticRegression.init n))) ∧
    (∀ n k, create_model2 ("multiclass") n k
        = .ok (.multiclass (MultiClassClassifier.init n k))) ∧
    (∀ n h m, create_model3 ("mlp") n h m = .ok (.mlp (TwoLayerMLP.init n h m))) ∧
    (∀ s n, s ≠ "linear" → s ≠ "logistic" →
        create_model1 s n = .error .UnknownModelType) ∧
    (∀ s n k, s ≠ "multiclass" → create_model2 s n k = .error .UnknownModelType) ∧
    (∀ s n h m, s ≠ "mlp" → create_model3 s n h m = .error .UnknownModelType) := by
  refine ⟨rfl, rfl, by simp [create_model1], by simp [create_model2],
    fun n => by simp [create_model1],
    fun n => by simp [create_model1],
    fun n k => by simp [create_model2],
    fun n h m => by simp [create_model3],
    fun s n h1 h2 => by simp [create_model1, h1, h2],
    fun s n k h1 => by simp [create_model2, h1],
    fun s n h m h1 => by simp [create_model3, h1]⟩

/-- Witness for C7: the quantified clauses applied at concrete identifiers
and shapes. -/
theorem registry_create_dispatch_witness :
    (create_model1 ("linear") 5 = .ok (.linear (LinearRegression.init 5))) ∧
    (create_model1 ("nope") 1 = .error .UnknownModelType) ∧
    (create_model2 ("mlp") 1 2 = .error .UnknownModelType) ∧
    (create_model3 ("logistic") 1 2 3 = .error .UnknownModelType) :=
  ⟨registry_create_dispatch.2.2.2.2.1 5,
   registry_create_dispatch.2.2.2.2.2.2.2.2.1 ("nope") 1 (by decide) (by decide),
   registry_create_dispatch.2.2.2.2.2.2.2.2.2.1 ("mlp") 1 2 (by decide),
   registry_create_dispatch.2.2.2.2.2.2.2.2.2.2 ("logistic") 1 2 3 (by decide)⟩

/-- Claim C1: for every model variant, `set_parameters` with a wrong-length vector
fails with `DimensionMismatch` leaving the stored parameters (and hence any
subsequent `forward` result) unchanged, and with a correct-length vector it
replaces the full parameter set. -/
theorem set_parameters_guard_all_variants :
    (∀ (m : LinearRegression) (p x : List ℝ),
      (p.length ≠ m.input_size + 1 →
        m.set_parameters p = (m, some .DimensionMismatch) ∧
        ((m.set_parameters p).1).forward x = m.forward x) ∧
      (p.length = m.input_size + 1 →
        (m.set_parameters p).2 = none ∧
        (m.set_parameters p).1.weights = p.take m.input_size ∧
        (m.set_parameters p).1.bias = p.getD m.input_size 0)) ∧
    (∀ (m : LogisticRegression) (p x : List ℝ),
      (p.length ≠ m.input_size + 1 →
        m.set_parameters p = (m, some .DimensionMismatch) ∧
        ((m.set_parameters p).1).forward x = m.forward x) ∧
      (p.length = m.input_size + 1 →
        (m.set_parameters p).2 = none ∧
        (m.set_parameters p).1.weights = p.take m.input_size ∧
        (m.set_parameters p).1.bias = p.getD m.input_size 0)) ∧
    (∀ (m : MultiClassClassifier) (p x : List ℝ),
      (p.length ≠ m.num_classes * m.input_size + m.num_classes →
        m.set_parameters p = (m, some .DimensionMismatch) ∧
        ((m.set_parameters p).1).forward x = m.forward x) ∧
      (p.length = m.num_classes * m.input_size + m.num_classes →
        (m.set_parameters p).2 = none ∧
        (m.set_parameters p).1.weights
          = (List.range m.num_classes).map
              (fun c => (p.drop (c * m.input_size)).take m.input_size) ∧
        (m.set_parameters p).1.biases
          = (p.drop (m.num_classes * m.input_size)).take m.num_classes)) ∧
    (∀ (s : TwoLayerMLP) (p x : List ℝ),
      (p.length ≠ s.W1.length + s.b1.length + s.W2.length + s.b2.length →
        s.set_parameters p = (s, some .DimensionMismatch) ∧
        ((s.set_parameters p).1).forward x = s.forward x) ∧
      (p.length = s.W1.length + s.b1.length + s.W2.length + s.b2.length →
        (s.set_parameters p).2 = none ∧
        (s.set_parameters p).1.W1 = p.take s.W1.length ∧
        (s.set_parameters p).1.b1 = (p.drop s.W1.length).take s.b1.length ∧
        (s.set_parameters p).1.W2
          = (p.drop (s.W1.length + s.b1.length)).take s.W2.length ∧
        (s.set_parameters p).1.b2
          = (p.drop (s.W1.length + s.b1.length + s.W2.length)).take s.b2.length)) := by
  refine ⟨?_, ?_, ?_, ?_⟩
  · intro m p x
    constructor
    · intro hne
      have hset : m.set_parameters p = (m, some .DimensionMismatch) := by
        unfold LinearRegression.set_parameters
        rw [if_pos hne]
      exact ⟨hset, by rw [hset]⟩
    · intro heq
      unfold LinearRegression.set_parameters
      rw [if_neg (by omega)]
      refine ⟨rfl, ?_, rfl⟩
      simpa using map_range_getD_slice p 0 0 m.input_size (by omega)
  · intro m p x
    constructor
    · intro hne
      have hset : m.set_parameters p = (m, some .DimensionMismatch) := by
        unfold LogisticRegression.set_parameters
        rw [if_pos hne]
      exact ⟨hset, by rw [hset]⟩
    · intro heq
      unfold LogisticRegression.set_parameters
      rw [if_neg (by omega)]
      refine ⟨rfl, ?_, rfl⟩
      simpa using map_range_getD_slice p 0 0 m.input_size (by omega)
  · intro m p x
    constructor
    · intro hne
      have hset : m.set_parameters p = (m, some .DimensionMismatch) := by
        unfold MultiClassClassifier.set_parameters
        rw [if_pos hne]
      exact ⟨hset, by rw [hset]⟩
    · intro heq
      unfold MultiClassClassifier.set_parameters
      rw [if_neg (by omega)]
      refine ⟨rfl, ?_, ?_⟩
      · show (List.range m.num_classes).map _ = _
        apply List.map_congr_left
        intro c hc
        have hck : c < m.num_classes := List.mem_range.mp hc
        have hbound : c * m.input_size + m.input_size ≤ p.length := by
          have h1 : (c + 1) * m.input_size ≤ m.num_classes * m.input_size :=
            Nat.mul_le_mul_right m.input_size (Nat.succ_le_of_lt hck)
          have h2 : c * m.input_size + m.input_size = (c + 1) * m.input_size := by ring
          omega
        exact map_range_getD_slice p 0 (c * m.input_size) m.input_size hbound
      · exact map_range_getD_slice p 0 (m.num_classes * m.input_size)
          m.num_classes (by omega)
  · intro s p x
    constructor
    · intro hne
      have hset : s.set_parameters p = (s, some .DimensionMismatch) := by
        unfold TwoLayerMLP.set_parameters
        rw [if_pos hne]
      exact ⟨hset, by rw [hset]⟩
    · intro heq
      unfold TwoLayerMLP.set_parameters
      rw [if_neg (by omega)]
      refine ⟨rfl, ?_, ?_, ?_, ?_⟩
      · simpa using map_range_getD_slice p 0 0 s.W1.length (by omega)
      · exact map_range_getD_slice p 0 s.W1.length s.b1.length (by omega)
      · exact map_range_getD_slice p 0 (s.W1.length + s.b1.length)
          s.W2.length (by omega)
      · exact map_range_getD_slice p 0 (s.W1.length + s.b1.length + s.W2.length)
          s.b2.length (by omega)

/-- Witness for C1: rejection and replacement observed at concrete models and
vectors of each variant. -/
theorem set_parameters_guard_all_variants_witness :
    ((LinearRegression.init 1).set_parameters [1, 2, 3]
        = (LinearRegression.init 1, some .DimensionMismatch)) ∧
    ((LinearRegression.init 1).set_parameters [4, 5] |>.1).weights = [4] ∧
    ((LogisticRegression.init 1).set_parameters []
        = (LogisticRegression.init 1, some .DimensionMismatch)) ∧
    ((LogisticRegression.init 1).set_parameters [6, 7] |>.1).bias = 7 ∧
    ((MultiClassClassifier.init 1 2).set_parameters [1]
        = (MultiClassClassifier.init 1 2, some .DimensionMismatch)) ∧
    ((MultiClassClassifier.init 1 2).set_parameters [8, 9, 10, 11] |>.1).biases
        = [10, 11] ∧
    ((TwoLayerMLP.init 1 1 1).set_parameters [1, 2]
        = (TwoLayerMLP.init 1 1 1, some .DimensionMismatch)) ∧
    ((TwoLayerMLP.init 1 1 1).set_parameters [1, 2, 3, 4] |>.1).b2 = [4] := by
  obtain ⟨hlin, hlog, hmc, hmlp⟩ := set_parameters_guard_all_variants
  refine ⟨((hlin (LinearRegression.init 1) [1, 2, 3] []).1 (by simp [LinearRegression.init])).1,
    ?_, ((hlog (LogisticRegression.init 1) [] []).1 (by simp [LogisticRegression.init])).1, ?_,
    ((hmc (MultiClassClassifier.init 1 2) [1] []).1 (by simp [MultiClassClassifier.init])).1, ?_,
    ((hmlp (TwoLayerMLP.init 1 1 1) [1, 2] []).1 (by simp [TwoLayerMLP.init])).1, ?_⟩
  · have h := ((hlin (LinearRegression.init 1) [4, 5] []).2 (by simp [LinearRegression.init])).2.1
    simpa [LinearRegression.init] using h
  · have h := ((hlog (LogisticRegression.init 1) [6, 7] []).2 (by simp [LogisticRegression.init])).2.2
    simpa [LogisticRegression.init] using h
  · have h := ((hmc (MultiClassClassifier.init 1 2) [8, 9, 10, 11] []).2
      (by simp [MultiClassClassifier.init])).2.2
    simpa [MultiClassClassifier.init] using h
  · have h := ((hmlp (TwoLayerMLP.init 1 1 1) [1, 2, 3, 4] []).2
      (by simp [TwoLayerMLP.init])).2.2.2.2
    simpa [TwoLayerMLP.init] using h

/-- Flat row-major indexing stays inside the block. -/
theorem index_flat_lt {i n j h : ℕ} (hi : i < n) (hj : j < h) :
    i * h + j < n * h := by
  have h1 : (i + 1) * h ≤ n * h := Nat.mul_le_mul_right h (Nat.succ_le_of_lt hi)
  have h2 : i * h + h = (i + 1) * h := by ring
  omega

/-- Claim C2: a TwoLayerMLP with shape `(n, h, m)` expects `n*h + h + h*m + m`
parameters laid out as W1 (flat index `i*h + j`), then `h` first-layer
biases, then W2 (flat index `j*m + o`), then `m` output biases; `forward`
computes ReLU hidden units and a linear readout, and every hidden activation
used by the readout is non-negative. -/
theorem mlp_parameter_layout_and_forward (n h m : ℕ) (p x : List ℝ)
    (hp : p.length = n * h + h + h * m + m) (hx : x.length = n) :
    (∀ q : List ℝ, q.length ≠ n * h + h + h * m + m →
      (TwoLayerMLP.init n h m).set_parameters q
        = (TwoLayerMLP.init n h m, some .DimensionMismatch)) ∧
    (((TwoLayerMLP.init n h m).set_parameters p).2 = none) ∧
    ((((TwoLayerMLP.init n h m).set_parameters p).1).forward x
      = .ok ((List.range m).map (fun o =>
          p.getD (n * h + h + h * m + o) 0
            + ∑ j ∈ Finset.range h, p.getD (n * h + h + (j * m + o)) 0
                * max 0 (p.getD (n * h + j) 0
                    + ∑ i ∈ Finset.range n, p.getD (i * h + j) 0 * x.getD i 0)))) ∧
    (∀ j, 0 ≤ (((TwoLayerMLP.init n h m).set_parameters p).1).hidden x j) := by
  have hset : (TwoLayerMLP.init n h m).set_parameters p
      = ({ W1 := (List.range (n * h)).map (fun i => p.getD i 0),
           b1 := (List.range h).map (fun i => p.getD (n * h + i) 0),
           W2 := (List.range (h * m)).map (fun i => p.getD (n * h + h + i) 0),
           b2 := (List.range m).map (fun i => p.getD (n * h + h + h * m + i) 0),
           input_size := n, hidden_size := h, output_size := m }, none) := by
    unfold TwoLayerMLP.set_parameters TwoLayerMLP.init
    simp only [List.length_replicate]
    rw [if_neg (by omega)]
  have hhid : ∀ j, j < h →
      (((TwoLayerMLP.init n h m).set_parameters p).1).hidden x j
        = max 0 (p.getD (n * h + j) 0
            + ∑ i ∈ Finset.range n, p.getD (i * h + j) 0 * x.getD i 0) := by
    intro j hj
    rw [hset]
    unfold TwoLayerMLP.hidden
    refine congrArg (fun v => max 0 v) ?_
    refine congrArg₂ (fun a b => a + b) (getD_map_range _ _ hj)
      (Finset.sum_congr rfl ?_)
    intro i hi
    rw [getD_map_range _ _ (index_flat_lt (Finset.mem_range.mp hi) hj)]
  refine ⟨?_, by rw [hset], ?_, ?_⟩
  · intro q hq
    unfold TwoLayerMLP.set_parameters TwoLayerMLP.init
    simp only [List.length_replicate]
    rw [if_pos (by omega)]
  · have hfwd : (((TwoLayerMLP.init n h m).set_parameters p).1).forward x
        = .ok ((List.range m).map
            ((((TwoLayerMLP.init n h m).set_parameters p).1).outUnit x)) := by
      rw [hset]
      unfold TwoLayerMLP.forward
      rw [if_neg (by simpa using hx)]
    rw [hfwd]
    refine congrArg Except.ok (List.map_congr_left ?_)
    intro o ho
    have hom : o < m := List.mem_range.mp ho
    unfold TwoLayerMLP.outUnit
    rw [hset]
    refine congrArg₂ (fun a b => a + b) (getD_map_range _ _ hom)
      (Finset.sum_congr rfl ?_)
    intro j hj
    have hjh : j < h := Finset.mem_range.mp hj
    rw [getD_map_range _ _ (index_flat_lt hjh hom)]
    have hh := hhid j hjh
    rw [hset] at hh
    rw [hh]
  · intro j
    unfold TwoLayerMLP.hidden
    exact le_max_left 0 _

/-- Witness for C2 at shape `(1, 1, 1)`, parameters `[2, 3, 4, 5]`, input
`[10]`. -/
theorem mlp_parameter_layout_and_forward_witness :
    (((TwoLayerMLP.init 1 1 1).set_parameters [2, 3, 4, 5]).1).forward [10]
        = .ok [97] := by
  have h := mlp_parameter_layout_and_forward 1 1 1 [2, 3, 4, 5] [10]
      (by simp) (by simp)
  have h2 := h.2.2.1
  norm_num [Finset.sum_range_succ, List.range_succ] at h2
  exact h2

/-- Successful `set_parameters` on a fresh classifier, written out. -/
theorem multiclass_set_eq (n k : ℕ) (p : List ℝ) (hp : p.length = k * n + k) :
    (MultiClassClassifier.init n k).set_parameters p
      = ({ weights := (List.range k).map (fun c =>
             (List.range n).map (fun i => p.getD (c * n + i) 0)),
           biases := (List.range k).map (fun c => p.getD (k * n + c) 0),
           input_size := n, num_classes := k }, none) := by
  simp only [MultiClassClassifier.set_parameters, MultiClassClassifier.init]
  rw [if_neg (by omega)]

/-- The logit of a fresh classifier after `set_parameters`, in terms of the
flat parameter vector. -/
theorem multiclass_set_logit (n k : ℕ) (p x : List ℝ)
    (hp : p.length = k * n + k) (c : ℕ) (hc : c < k) :
    (((MultiClassClassifier.init n k).set_parameters p).1).logit x c
      = p.getD (k * n + c) 0
        + ∑ i ∈ Finset.range n, p.getD (c * n + i) 0 * x.getD i 0 := by
  rw [multiclass_set_eq n k p hp]
  unfold MultiClassClassifier.logit
  refine congrArg₂ (fun a b => a + b) (getD_map_range _ _ hc)
    (Finset.sum_congr rfl ?_)
  intro i hi
  rw [getD_map_range _ _ hc, getD_map_range _ _ (Finset.mem_range.mp hi)]

/-- Claim C3 (amended): a MultiClassClassifier with `input_size n`, `num_classes k`
expects `k*n + k` parameters laid out as the `n` weights of each class `c` in
`0..k-1` followed by all `k` biases as a trailing block; each logit is
`bias[c] + sum_i weight[c][i]*input[i]` and `forward` returns the softmax of
the logits; at the spec example (`n=2`, `k=3`, the given parameters and
input) the logits are `[0.6, -0.48, 1.06]`. -/
theorem multiclass_layout_and_forward (n k : ℕ) (p x : List ℝ)
    (hp : p.length = k * n + k) (hx : x.length = n) (hk : 1 ≤ k) :
    (∀ q : List ℝ, q.length ≠ k * n + k →
      (MultiClassClassifier.init n k).set_parameters q
        = (MultiClassClassifier.init n k, some .DimensionMismatch)) ∧
    (((MultiClassClassifier.init n k).set_parameters p).2 = none) ∧
    (∀ c, c < k →
      (((MultiClassClassifier.init n k).set_parameters p).1).logit x c
        = p.getD (k * n + c) 0
          + ∑ i ∈ Finset.range n, p.getD (c * n + i) 0 * x.getD i 0) ∧
    (∃ mx, ((List.range k).map
        ((((MultiClassClassifier.init n k).set_parameters p).1).logit x)).max?
          = some mx ∧
      (((MultiClassClassifier.init n k).set_parameters p).1).forward x
        = .ok (softmaxWith ((List.range k).map
            ((((MultiClassClassifier.init n k).set_parameters p).1).logit x)) mx)) ∧
    ((List.range 3).map
        ((((MultiClassClassifier.init 2 3).set_parameters
            [1, 0.5, 0.2, -0.5, 1.2, -0.1, 0.2, -0.8, 0.3]).1).logit [0.6, -0.4])
      = [0.6, -0.48, 1.06]) := by
  have hset := multiclass_set_eq n k p hp
  refine ⟨?_, by rw [hset], multiclass_set_logit n k p x hp, ?_, ?_⟩
  · intro q hq
    simp only [MultiClassClassifier.set_parameters, MultiClassClassifier.init]
    rw [if_pos (by omega)]
  · have hwf : (((MultiClassClassifier.init n k).set_parameters p).1).WF :=
      WF_set_parameters _ p (by simpa [MultiClassClassifier.init] using hp)
    have hlen2 : x.length
        = (((MultiClassClassifier.init n k).set_parameters p).1).input_size := by
      rw [hset]
      exact hx
    have hk2 : 1 ≤ (((MultiClassClassifier.init n k).set_parameters p).1).num_classes := by
      rw [hset]
      exact hk
    have hfo := MultiClassClassifier.forward_ok _ x hwf hlen2 hk2
    have hnum : (((MultiClassClassifier.init n k).set_parameters p).1).num_classes = k := by
      rw [hset]
    rw [hnum] at hfo
    exact hfo
  · have h0 := multiclass_set_logit 2 3
      [1, 0.5, 0.2, -0.5, 1.2, -0.1, 0.2, -0.8, 0.3] [0.6, -0.4] (by simp) 0 (by omega)
    have h1 := multiclass_set_logit 2 3
      [1, 0.5, 0.2, -0.5, 1.2, -0.1, 0.2, -0.8, 0.3] [0.6, -0.4] (by simp) 1 (by omega)
    have h2 := multiclass_set_logit 2 3
      [1, 0.5, 0.2, -0.5, 1.2, -0.1, 0.2, -0.8, 0.3] [0.6, -0.4] (by simp) 2 (by omega)
    simp only [List.range_succ, List.range_zero, List.map_append, List.map_cons,
      List.map_nil, List.nil_append, List.cons_append]
    rw [h0, h1, h2]
    norm_num [Finset.sum_range_succ]

/-- Witness for C3 at the spec example shape and data. -/
theorem multiclass_layout_and_forward_witness :
    (((MultiClassClassifier.init 2 3).set_parameters
        [1, 0.5, 0.2, -0.5, 1.2, -0.1, 0.2, -0.8, 0.3]).2 = none) ∧
    ((List.range 3).map
        ((((MultiClassClassifier.init 2 3).set_parameters
            [1, 0.5, 0.2, -0.5, 1.2, -0.1, 0.2, -0.8, 0.3]).1).logit [0.6, -0.4])
      = [0.6, -0.48, 1.06]) := by
  have h := multiclass_layout_and_forward 2 3
    [1, 0.5, 0.2, -0.5, 1.2, -0.1, 0.2, -0.8, 0.3] [0.6, -0.4]
    (by simp) (by simp) (by omega)
  exact ⟨h.2.1, h.2.2.2.2⟩

/-- Claim C3 counterexample: at the spec example the code computes logits
`[0.6, -0.48, 1.06]`, not the claimed `[0.4, -0.88, 0.74]`. -/
theorem multiclass_example_logits_mismatch :
    ¬ ((List.range 3).map
        ((((MultiClassClassifier.init 2 3).set_parameters
            [1, 0.5, 0.2, -0.5, 1.2, -0.1, 0.2, -0.8, 0.3]).1).logit [0.6, -0.4])
      = [(0.4 : ℝ), -0.88, 0.74]) := by
  have h0 := multiclass_set_logit 2 3
    [1, 0.5, 0.2, -0.5, 1.2, -0.1, 0.2, -0.8, 0.3] [0.6, -0.4] (by simp) 0 (by omega)
  intro hcontra
  simp only [List.range_succ, List.range_zero, List.map_append, List.map_cons,
    List.map_nil, List.nil_append, List.cons_append] at hcontra
  rw [h0] at hcontra
  have hhead := congrArg (fun l => l.getD 0 (0 : ℝ)) hcontra
  norm_num [Finset.sum_range_succ] at hhead
/-- Claim C4: for every classifier whose stored vectors match its shape (at least
one class) and every input of length `input_size`, `forward` succeeds and
returns a probability distribution: every entry in `[0,1]`, entries summing
to `1` exactly (hence within tolerance `1e-3`), with `output_size` many
entries; real-valued semantics of the max-subtracted softmax, which is
well-defined for logits of any magnitude. -/
theorem multiclass_forward_distribution (m : MultiClassClassifier)
    (x : List ℝ) (hwf : m.WF) (hk : 1 ≤ m.num_classes)
    (hx : x.length = m.input_size) :
    ∃ out, m.forward x = .ok out ∧ out.length = m.num_classes ∧
      (∀ q ∈ out, 0 ≤ q ∧ q ≤ 1) ∧ out.sum = 1 ∧ |out.sum - 1| ≤ 1 / 1000 := by
  obtain ⟨mx, hmx, hfwd⟩ := m.forward_ok x hwf hx hk
  have hne : (List.range m.num_classes).map (m.logit x) ≠ [] := by
    simp only [ne_eq, List.map_eq_nil_iff, List.range_eq_nil]
    omega
  have hsum := softmaxWith_sum_one ((List.range m.num_classes).map (m.logit x)) mx hne
  refine ⟨_, hfwd, ?_, ?_, hsum, ?_⟩
  · simp [softmaxWith]
  · exact fun q hq =>
      softmaxWith_mem_unit ((List.range m.num_classes).map (m.logit x)) mx hne q hq
  · rw [hsum]
    norm_num

/-- Witness for C4: a classifier with logit magnitude 1000 still yields a
distribution. -/
theorem multiclass_forward_distribution_witness :
    ∃ out, (MultiClassClassifier.mk [[0], [0]] [1000, -1000] 1 2).forward [0]
        = .ok out ∧ out.length = 2 ∧ (∀ q ∈ out, 0 ≤ q ∧ q ≤ 1) ∧
        out.sum = 1 ∧ |out.sum - 1| ≤ 1 / 1000 := by
  have h := multiclass_forward_distribution
    (MultiClassClassifier.mk [[0], [0]] [1000, -1000] 1 2) [0]
    ⟨by simp, by simp, by intro row hrow; simp at hrow; simp [hrow]⟩
    (by simp) (by simp)
  exact h

/-- Claim C6: a freshly constructed, never-parameterized model behaves as all-zero
parameters: the linear model outputs `[0]`, the logistic model `[0.5]`, the
classifier the uniform distribution `1/k`, and the MLP the all-zero vector. -/
theorem fresh_model_zero_parameters (n k h m : ℕ) (x : List ℝ)
    (hk : 1 ≤ k) (hx : x.length = n) :
    ((LinearRegression.init n).forward x = .ok [0]) ∧
    ((LogisticRegression.init n).forward x = .ok [0.5]) ∧
    ((MultiClassClassifier.init n k).forward x
        = .ok (List.replicate k (1 / (k : ℝ)))) ∧
    ((TwoLayerMLP.init n h m).forward x = .ok (List.replicate m 0)) := by
  refine ⟨?_, ?_, ?_, ?_⟩
  · unfold LinearRegression.forward LinearRegression.init
    rw [if_neg (by simpa using hx)]
    refine congrArg (fun v => Except.ok [v]) ?_
    rw [Finset.sum_congr rfl (fun i _ => by rw [getD_replicate_self, zero_mul])]
    simp
  · unfold LogisticRegression.forward
    rw [if_neg (by simp [LogisticRegression.init, hx])]
    have hz : (LogisticRegression.init n).linear_output x = 0 := by
      unfold LogisticRegression.linear_output LogisticRegression.init
      rw [Finset.sum_congr rfl (fun i _ => by rw [getD_replicate_self, zero_mul])]
      simp
    rw [hz]
    norm_num
  · have hwf := WF_init n k
    have hfo := MultiClassClassifier.forward_ok (MultiClassClassifier.init n k) x
      hwf (by simpa [MultiClassClassifier.init] using hx)
      (by simpa [MultiClassClassifier.init] using hk)
    obtain ⟨mx, hmx, hfwd⟩ := hfo
    have hlog : (List.range (MultiClassClassifier.init n k).num_classes).map
        ((MultiClassClassifier.init n k).logit x) = List.replicate k 0 := by
      have hnum : (MultiClassClassifier.init n k).num_classes = k := rfl
      rw [hnum]
      rw [List.map_congr_left (fun c _ => logit_init_zero n k x c)]
      simp [List.map_const']
    rw [hlog] at hmx hfwd
    obtain ⟨j, rfl⟩ : ∃ j, k = j + 1 := ⟨k - 1, by omega⟩
    rw [max?_replicate_succ] at hmx
    have hmx0 : mx = 0 := by
      injection hmx with hv
      exact hv.symm
    rw [hmx0] at hfwd
    have hsm : softmaxWith (List.replicate (j + 1) (0 : ℝ)) 0
        = List.replicate (j + 1) (1 / ((j + 1 : ℕ) : ℝ)) := by
      unfold softmaxWith
      simp [List.map_replicate, List.sum_replicate, nsmul_eq_mul, sub_zero,
        Real.exp_zero]
    rw [hfwd, hsm]
  · unfold TwoLayerMLP.forward
    rw [if_neg (by simp [TwoLayerMLP.init, hx])]
    refine congrArg Except.ok ?_
    have hos : (TwoLayerMLP.init n h m).output_size = m := rfl
    rw [hos]
    have hout : ∀ o ∈ List.range m, (TwoLayerMLP.init n h m).outUnit x o = 0 := by
      intro o _
      unfold TwoLayerMLP.outUnit TwoLayerMLP.init
      rw [Finset.sum_congr rfl (fun j _ => by rw [getD_replicate_self, zero_mul])]
      simp [getD_replicate_self]
    rw [List.map_congr_left hout]
    simp [List.map_const']
/-- Witness for C6 at concrete shapes and input. -/
theorem fresh_model_zero_parameters_witness :
    ((LinearRegression.init 2).forward [7, 8] = .ok [0]) ∧
    ((LogisticRegression.init 2).forward [7, 8] = .ok [0.5]) ∧
    ((MultiClassClassifier.init 2 4).forward [7, 8]
        = .ok (List.replicate 4 (1 / (4 : ℝ)))) ∧
    ((TwoLayerMLP.init 2 3 5).forward [7, 8] = .ok (List.replicate 5 0)) := by
  have h := fresh_model_zero_parameters 2 4 3 5 [7, 8] (by omega) (by simp)
  simpa using h

/-- Claim C10: neither the classifier constructor nor the factory rejects
`num_classes = 0`; with at least one class and matching sizes every vector
access in `forward` is in bounds (the checked evaluation returns `ok`), but
at `num_classes = 0` the `max_element` dereference reads an empty logit
vector, so the out-of-bounds branch is reachable from the public
interface. -/
theorem multiclass_oob_reachable :
    (∀ n, create_model2 ("multiclass") n 0
        = .ok (.multiclass (MultiClassClassifier.init n 0))) ∧
    (∀ (m : MultiClassClassifier) (x : List ℝ), m.WF → 1 ≤ m.num_classes →
      x.length = m.input_size → ∃ out, m.forward x = .ok out) ∧
    (∀ (m : MultiClassClassifier) (x : List ℝ), m.num_classes = 0 →
      x.length = m.input_size → m.forward x = .error .OutOfBoundsRead) := by
  refine ⟨fun n => by simp [create_model2], ?_, ?_⟩
  · intro m x hwf hk hx
    obtain ⟨mx, hmx, hfwd⟩ := m.forward_ok x hwf hx hk
    exact ⟨_, hfwd⟩
  · intro m x hk0 hx
    unfold MultiClassClassifier.forward
    rw [if_neg (by omega), hk0]
    rfl

/-- Witness for C10: factory accepts zero classes, an in-range classifier
runs in bounds, and the zero-class classifier hits the out-of-bounds
branch. -/
theorem multiclass_oob_reachable_witness :
    (create_model2 ("multiclass") 3 0
        = .ok (.multiclass (MultiClassClassifier.init 3 0))) ∧
    (∃ out, (MultiClassClassifier.init 1 1).forward [5] = .ok out) ∧
    ((MultiClassClassifier.init 3 0).forward [1, 2, 3]
        = .error .OutOfBoundsRead) := by
  refine ⟨multiclass_oob_reachable.1 3, ?_, ?_⟩
  · exact multiclass_oob_reachable.2.1 (MultiClassClassifier.init 1 1) [5]
      (WF_init 1 1) (by simp [MultiClassClassifier.init])
      (by simp [MultiClassClassifier.init])
  · exact multiclass_oob_reachable.2.2 (MultiClassClassifier.init 3 0) [1, 2, 3]
      rfl (by simp [MultiClassClassifier.init])

/-- Claim C9 (amended): the test-case loader accepts only the two-field form with
input and expected output separated by an arrow; lines beginning with `#`
and blank lines are skipped; a malformed line — including a three-field
pipe-separated line, which this loader does not accept (a separate loader in
the test harness handles that form) — is reported and skipped without
aborting the loading of subsequent lines. -/
theorem loader_line_handling :
    (∀ ln rest, load_lines ln ([] :: rest) = load_lines (ln + 1) rest) ∧
    (∀ ln t rest, load_lines ln (('#' :: t) :: rest) = load_lines (ln + 1) rest) ∧
    (∀ ln c t rest, c ≠ '#' → parse_line (c :: t) ln = .error () →
      load_lines ln ((c :: t) :: rest)
        = ((load_lines (ln + 1) rest).1, ln :: (load_lines (ln + 1) rest).2)) ∧
    (∀ ln c t rest tc, c ≠ '#' → parse_line (c :: t) ln = .ok tc →
      load_lines ln ((c :: t) :: rest)
        = (tc :: (load_lines (ln + 1) rest).1, (load_lines (ln + 1) rest).2)) ∧
    (parse_line (("1.0,2.0 -> 3.0,4.0").toList) 1
      = .ok { input := [1, 2], expected_output := [3, 4], description_line := 1 }) ∧
    (parse_line (("1.0,2.0 | 0.5,0.3 | 3.0").toList) 2 = .error ()) := by
  refine ⟨fun ln rest => rfl, fun ln t rest => rfl, ?_, ?_, by decide, by decide⟩
  · intro ln c t rest hc hperr
    simp only [load_lines]
    rw [if_neg hc, hperr]
  · intro ln c t rest tc hc hpok
    simp only [load_lines]
    rw [if_neg hc, hpok]

/-- Witness for C9: each load-loop clause observed at concrete lines. -/
theorem loader_line_handling_witness :
    (load_lines 5 ([] :: []) = load_lines 6 []) ∧
    (load_lines 5 (('#' :: ['c']) :: []) = load_lines 6 []) ∧
    (load_lines 5 (('b' :: ['a', 'd']) :: [])
      = ((load_lines 6 []).1, 5 :: (load_lines 6 []).2)) ∧
    (load_lines 5 (('1' :: [' ', '-', '>', ' ', '2']) :: [])
      = ({ input := [1], expected_output := [2], description_line := 5 }
          :: (load_lines 6 []).1, (load_lines 6 []).2)) :=
  ⟨loader_line_handling.1 5 [], loader_line_handling.2.1 5 ['c'] [],
   loader_line_handling.2.2.1 5 'b' ['a', 'd'] [] (by decide) (by decide),
   loader_line_handling.2.2.2.1 5 '1' [' ', '-', '>', ' ', '2'] []
     { input := [1], expected_output := [2], description_line := 5 }
     (by decide) (by decide)⟩

/-- Claim C9 counterexample: a well-formed three-field pipe-separated line is not
accepted by the loader — it is treated as malformed (parse error, reported
and skipped), refuting that the loader accepts that form. -/
theorem loader_three_field_rejected :
    (parse_line (("1.0,2.0 | 0.5,0.3 | 3.0").toList) 1 = .error ()) ∧
    (load_from_file [("1.0,2.0 | 0.5,0.3 | 3.0").toList] = ([], [1])) := by
  exact ⟨by decide, by decide⟩
